import Mathlib

/-!
# Verification of the snapshot-acquisition engine

Shallow embedding, in Lean 4, of the core of the Wayback-archive crawler:
the asset extractor (`AssetExtractor`), URL rewriter (`URLRewriter`),
asset fetcher with two-tier deduplication (`AssetFetcher` +
`DatabaseService`), the durable work queue (`CrawlerDB`), and the
link-discovery slice of the page processor (`WaybackCrawler`).

Pure functions of the TypeScript source become Lean functions; the SQLite
tables, the filesystem (with hard links modelled as shared inode numbers)
and the HTTP upstream become explicit state threaded through the fetch
loop.  JavaScript `number` arithmetic on byte sizes is modelled with `Rat`
(division of a byte count below 2^53 by 2^20 is exact in binary64, so the
rational value coincides with the float the source computes).  SHA-256 is
modelled as a parameter `hashFn` (the code only compares digests for
equality); concrete evaluations use the injective stand-in `sha256Model`.
-/

/-! ## String helpers (JavaScript semantics) -/

/-- `s.startsWith(p)` of JavaScript / `String.startsWith` of the source. -/
def strStarts (s p : String) : Bool :=
  p.data.isPrefixOf s.data

/-- `s.endsWith(p)` of JavaScript, used by `getAssetLocalPath`. -/
def jsEndsWith (s p : String) : Bool :=
  p.data.isSuffixOf s.data

/-- `s.trim()` of JavaScript (whitespace stripped from both ends). -/
def jsTrim (s : String) : String :=
  ⟨((s.data.dropWhile Char.isWhitespace).reverse.dropWhile Char.isWhitespace).reverse⟩

/-- Drop the first character of a string: `s.substring(1)` of the source. -/
def strTail (s : String) : String :=
  ⟨s.data.drop 1⟩

/-- Whether `sub` occurs as a contiguous sublist of `l`. -/
def containsSub (l sub : List Char) : Bool :=
  match l with
  | [] => sub.isPrefixOf []
  | _ :: rest => sub.isPrefixOf l || containsSub rest sub

/-- `a.includes(b)`: whether `b` occurs as a substring of `a`. -/
def strContains (s sub : String) : Bool :=
  containsSub s.data sub.data

/-- The characters after the last occurrence of `sep` in `l`, or `none`
when `sep` does not occur.  For a separator that cannot overlap itself
(such as `"/http"`), this is the last element of the JavaScript
`l.split(sep)` when that split has more than one part. -/
def afterLastOcc (l sep : List Char) : Option (List Char) :=
  match l with
  | [] => none
  | c :: rest =>
    match afterLastOcc rest sep with
    | some r => some r
    | none =>
      if sep.isPrefixOf (c :: rest) then some ((c :: rest).drop sep.length) else none

/-- `s.split(sep)[0]` of JavaScript for a one-character separator. -/
def jsSplitHead (s : String) (sep : Char) : String :=
  ⟨s.data.takeWhile (fun c => c != sep)⟩

/-! ## URL model

The source calls the WHATWG `new URL(...)` parser.  We model its behaviour
on the well-formed absolute `http(s)` URLs this development deals with: a
scheme, a hostname up to the first `/`, and the remaining pathname (`/`
when absent, as `href` normalization produces). -/

/-- Result of parsing an absolute http(s) URL (`new URL(u)` of the source). -/
structure ParsedUrl where
  scheme : String
  hostname : String
  pathname : String
deriving Repr, DecidableEq

/-- Model of `new URL(url)` for absolute http(s) URLs; `none` models the
thrown `TypeError` on other inputs. -/
def parseUrl (url : String) : Option ParsedUrl :=
  let parseWith (sch : String) : Option ParsedUrl :=
    if strStarts url sch then
      let rest := url.drop sch.length
      let host : String := ⟨rest.data.takeWhile (fun c => c != '/')⟩
      let path : String := ⟨rest.data.drop host.data.length⟩
      some ⟨sch, host, if path = "" then "/" else path⟩
    else none
  match parseWith "https://" with
  | some u => some u
  | none => parseWith "http://"

/-- `u.href`: serialize a parsed URL back to a string. -/
def hrefOf (u : ParsedUrl) : String :=
  u.scheme ++ u.hostname ++ u.pathname

/-- Directory part of a pathname (up to and including the last `/`),
used for relative-reference resolution. -/
def dirnameOf (p : String) : String :=
  ⟨(p.data.reverse.dropWhile (fun c => c != '/')).reverse⟩

/-- Model of `new URL(url, base)`: absolute URLs parse directly,
root-relative and relative references resolve against the base. -/
def resolveParse (url base : String) : Option ParsedUrl :=
  match parseUrl url with
  | some u => some u
  | none =>
    match parseUrl base with
    | none => none
    | some b =>
      if strStarts url "/" then some ⟨b.scheme, b.hostname, url⟩
      else some ⟨b.scheme, b.hostname, dirnameOf b.pathname ++ url⟩

/-- `AssetExtractor.resolveUrl`: `new URL(url, baseUrl).href`, returning
the input unchanged when parsing fails (the `catch` branch). -/
def resolveUrl (url baseUrl : String) : String :=
  match resolveParse url baseUrl with
  | some u => hrefOf u
  | none => url

/-- `isDataUri` shared by extractor and rewriter:
`url.trim().startsWith('data:')`. -/
def isDataUri (url : String) : Bool :=
  strStarts (jsTrim url) "data:"

/-! ## Internal/external host classification (claim C5)

Three places in the source classify a host as internal or external:
`AssetExtractor.isExternalUrl`, `URLRewriter.isExternalDomain`, and the
inline test in `WaybackCrawler.getAssetLocalPath`. -/

/-- `AssetExtractor.isExternalUrl`: parse the URL and compare the hostname
to the base domain for exact inequality; parse failure yields `false`. -/
def isExternalUrl (baseDomain url : String) : Bool :=
  match parseUrl url with
  | some u => u.hostname != baseDomain
  | none => false

/-- `URLRewriter.isExternalDomain`: the host is internal iff it equals the
base domain or `www.` + the base domain. -/
def isExternalDomain (baseDomain hostname : String) : Bool :=
  if hostname == baseDomain || hostname == "www." ++ baseDomain then false
  else true

/-- The classification inside `WaybackCrawler.getAssetLocalPath`:
`!urlObj.hostname.endsWith(domain)`. -/
def assetLocalPathIsExternal (domain hostname : String) : Bool :=
  !(jsEndsWith hostname domain)

/-- `WaybackCrawler.getAssetLocalPath`: local path of an asset inside the
snapshot tree; the `catch` branch returns `""`. -/
def getAssetLocalPath (outputDir assetUrl domain timestamp : String) : String :=
  match parseUrl assetUrl with
  | none => ""
  | some u =>
    let isExternal := assetLocalPathIsExternal domain u.hostname
    let rel := if strStarts u.pathname "/" then strTail u.pathname else u.pathname
    if isExternal then
      outputDir ++ "/" ++ domain ++ "/" ++ timestamp ++ "/assets/external/" ++
        u.hostname ++ "/" ++ rel
    else
      outputDir ++ "/" ++ domain ++ "/" ++ timestamp ++ "/assets/" ++ rel

/-! ## Asset extractor (`AssetExtractor.extractFromHtml`)

The cheerio parse is the boundary of the embedding: an HTML document is
modelled as the list of its elements (tag name lower-case, attributes,
lower-cased parent tag), and each selector pass of the source becomes a
pass over that list, in source order. -/

/-- `AssetType` of `AssetTypes.ts`. -/
inductive AssetType
  | css
  | js
  | image
  | font
  | video
  | audio
  | other
deriving Repr, DecidableEq

/-- `AssetReference` of `AssetTypes.ts`. -/
structure AssetReference where
  url : String
  type : AssetType
  sourceFile : String
  isExternal : Bool
deriving Repr, DecidableEq

/-- One element of the parsed HTML document. -/
structure HtmlElement where
  tag : String
  attrs : List (String × String)
  parentTag : Option String
deriving Repr, DecidableEq

/-- `$(element).attr(name)`. -/
def getAttr (e : HtmlElement) (name : String) : Option String :=
  (e.attrs.find? (fun p => p.1 == name)).map (fun p => p.2)

/-- JavaScript truthiness of an attribute value: `undefined` and `""` are
falsy. -/
def jsTruthy (o : Option String) : Option String :=
  match o with
  | some s => if s == "" then none else some s
  | none => none

/-- JavaScript `a || b` on attribute lookups. -/
def jsOrStr (a b : Option String) : Option String :=
  match jsTruthy a with
  | some s => some s
  | none => jsTruthy b

/-- `AssetExtractor.createAssetReference`: resolve against the document
URL and classify internal/external. -/
def createAssetReference (baseDomain url baseUrl sourceFile : String)
    (type : AssetType) : AssetReference :=
  let absoluteUrl := resolveUrl url baseUrl
  { url := absoluteUrl, type := type, sourceFile := sourceFile,
    isExternal := isExternalUrl baseDomain absoluteUrl }

/-- `src.split(',')[0].trim().split(' ')[0]` applied to a `srcset`-style
value. -/
def firstSrcOf (src : String) : String :=
  jsSplitHead (jsTrim (jsSplitHead src ',')) ' '

/-- `AssetExtractor.extractFromHtml`: the five selector passes of the
source, concatenated in source order.  Note the `<source>` tag is matched
both by the `img, source` pass and by the dedicated `source` pass. -/
def extractFromHtml (baseDomain : String) (doc : List HtmlElement)
    (baseUrl sourceFile : String) : List AssetReference :=
  let linkRefs := doc.filterMap (fun e =>
    if e.tag == "link" && getAttr e "rel" == some "stylesheet" then
      match jsTruthy (getAttr e "href") with
      | some href =>
        if !isDataUri href then
          some (createAssetReference baseDomain href baseUrl sourceFile .css)
        else none
      | none => none
    else none)
  let scriptRefs := doc.filterMap (fun e =>
    if e.tag == "script" then
      match jsTruthy (getAttr e "src") with
      | some src =>
        if !isDataUri src then
          some (createAssetReference baseDomain src baseUrl sourceFile .js)
        else none
      | none => none
    else none)
  let imageRefs := doc.filterMap (fun e =>
    if e.tag == "img" || e.tag == "source" then
      match jsOrStr (getAttr e "src") (getAttr e "srcset") with
      | some src =>
        if !isDataUri src then
          some (createAssetReference baseDomain (firstSrcOf src) baseUrl sourceFile .image)
        else none
      | none => none
    else none)
  let mediaRefs := doc.filterMap (fun e =>
    if e.tag == "video" || e.tag == "audio" then
      match jsTruthy (getAttr e "src") with
      | some src =>
        if !isDataUri src then
          some (createAssetReference baseDomain src baseUrl sourceFile
            (if e.tag == "video" then .video else .audio))
        else none
      | none => none
    else none)
  let sourceParentRefs := doc.filterMap (fun e =>
    if e.tag == "source" then
      match jsTruthy (getAttr e "src"), e.parentTag with
      | some src, some parent =>
        if !isDataUri src && (parent == "video" || parent == "audio") then
          some (createAssetReference baseDomain src baseUrl sourceFile
            (if parent == "video" then .video else .audio))
        else none
      | _, _ => none
    else none)
  linkRefs ++ scriptRefs ++ imageRefs ++ mediaRefs ++ sourceParentRefs

/-! ## URL rewriter (`URLRewriter`) -/

/-- `URLRewriter.rewriteUrl`: relative path for an HTML reference; parse
failure returns the reference unchanged. -/
def rewriteUrl (baseDomain url baseUrl : String) : String :=
  match resolveParse url baseUrl with
  | none => url
  | some u =>
    let rel := if strStarts u.pathname "/" then strTail u.pathname else u.pathname
    if isExternalDomain baseDomain u.hostname then
      "assets/external/" ++ u.hostname ++ "/" ++ rel
    else
      "assets/" ++ rel

/-- `URLRewriter.rewriteUrlForCss`: relative path for a reference inside a
stored CSS file. -/
def rewriteUrlForCss (baseDomain url cssFileUrl : String) : String :=
  match resolveParse url cssFileUrl with
  | none => url
  | some u =>
    let rel := if strStarts u.pathname "/" then strTail u.pathname else u.pathname
    if isExternalDomain baseDomain u.hostname then
      "../external/" ++ u.hostname ++ "/" ++ rel
    else
      "../" ++ rel

/-- One fragment of a CSS file as consumed by the `url(...)` regex scan of
`rewriteCss`: plain text, or one `url(...)` occurrence with its whole
matched text and the captured inner reference. -/
inductive CssChunk
  | text (s : String)
  | urlRef (whole inner : String)
deriving Repr, DecidableEq

/-- `URLRewriter.rewriteCss`: every `url(...)` occurrence is replaced by
`url("<rewritten>")`, except `data:` URIs which keep the matched text. -/
def rewriteCss (baseDomain : String) (css : List CssChunk) (cssFileUrl : String) : String :=
  (css.map (fun chunk =>
    match chunk with
    | .text s => s
    | .urlRef whole inner =>
      if isDataUri inner then whole
      else "url(\"" ++ rewriteUrlForCss baseDomain inner cssFileUrl ++ "\")")).foldl
    (fun a b => a ++ b) ""

/-! ## Work queue (`CrawlerDB`) -/

/-- One row of the `urls` table (`fetchedAt` abstracts the
`CURRENT_TIMESTAMP` written by the mark operations). -/
structure UrlRow where
  url : String
  timestamp : String
  domain : String
  status : String
  localPath : Option String
  error : Option String
  fetchedAt : Bool
deriving Repr, DecidableEq

/-- The `urls` table. -/
structure CrawlerDBState where
  rows : List UrlRow
deriving Repr, DecidableEq

/-- Whether a row with primary key `(url, timestamp)` exists. -/
def hasKey (s : CrawlerDBState) (url timestamp : String) : Bool :=
  s.rows.any (fun r => r.url == url && r.timestamp == timestamp)

/-- Rows matching a primary key (the table never holds more than one). -/
def countKey (s : CrawlerDBState) (url timestamp : String) : Nat :=
  (s.rows.filter (fun r => r.url == url && r.timestamp == timestamp)).length

/-- `CrawlerDB.addUrl`: `INSERT OR IGNORE INTO urls ...` — a no-op when
the primary key already exists, whatever that row's fields are. -/
def addUrl (s : CrawlerDBState) (url timestamp domain status : String) : CrawlerDBState :=
  if hasKey s url timestamp then s
  else ⟨s.rows ++ [⟨url, timestamp, domain, status, none, none, false⟩]⟩

/-- `CrawlerDB.markCompleted`. -/
def markCompleted (s : CrawlerDBState) (url timestamp localPath : String) : CrawlerDBState :=
  ⟨s.rows.map (fun r =>
    if r.url == url && r.timestamp == timestamp then
      { r with status := "completed", localPath := some localPath, fetchedAt := true }
    else r)⟩

/-- `CrawlerDB.markFailed`. -/
def markFailed (s : CrawlerDBState) (url timestamp error : String) : CrawlerDBState :=
  ⟨s.rows.map (fun r =>
    if r.url == url && r.timestamp == timestamp then
      { r with status := "failed", error := some error, fetchedAt := true }
    else r)⟩

/-! ## Link discovery (`WaybackCrawler.extractLinks` / `crawlOne`) -/

/-- `WaybackCrawler.normalizeUrl`: strip an embedded archive prefix.  The
source takes the last part of `url.split('/http')` when the split has
more than one part; since `"/http"` cannot overlap itself this is the
text after its last occurrence. -/
def normalizeUrl (url : String) : String :=
  if strContains url "web.archive.org" then
    match afterLastOcc url.data "/http".data with
    | some r => "http" ++ (⟨r⟩ : String)
    | none => url
  else url

/-- `WaybackCrawler.isInternalUrl`: normalize, parse, and compare the
hostname against `[domain, "www." + domain, ""]` (the
`domainVariants.includes` call); parse failure yields `false`. -/
def isInternalUrl (url domain : String) : Bool :=
  match parseUrl (normalizeUrl url) with
  | some pu =>
    pu.hostname == domain || pu.hostname == "www." ++ domain || pu.hostname == ""
  | none => false

/-- Loop body of `WaybackCrawler.extractLinks` for one element: take
`href || src` of an `a, link, img, script` element, resolve it against
the page URL (`catch` skips), normalize, and keep it when internal (the
JS `Set` keeps first-insertion order without duplicates). -/
def extractLinksStep (baseUrl domain : String) (links : List String)
    (e : HtmlElement) : List String :=
  if e.tag == "a" || e.tag == "link" || e.tag == "img" || e.tag == "script" then
    match jsOrStr (getAttr e "href") (getAttr e "src") with
    | none => links
    | some href =>
      match resolveParse href baseUrl with
      | none => links
      | some abs =>
        let normalized := normalizeUrl (hrefOf abs)
        if isInternalUrl normalized domain then
          if links.contains normalized then links else links ++ [normalized]
        else links
  else links

/-- `WaybackCrawler.extractLinks`. -/
def extractLinks (doc : List HtmlElement) (baseUrl domain : String) : List String :=
  doc.foldl (extractLinksStep baseUrl domain) []

/-- The link-discovery step of `WaybackCrawler.crawlOne`: queue every
discovered link with the timestamp and domain of the page being
processed. -/
def discoverLinks (db : CrawlerDBState) (doc : List HtmlElement)
    (baseUrl timestamp domain : String) : CrawlerDBState :=
  (extractLinks doc baseUrl domain).foldl
    (fun s link => addUrl s link timestamp domain "pending") db

/-! ## Asset store state (`DatabaseService` assets table + filesystem)

Hard links are modelled by a path → inode table plus an inode → content
table: two paths mapped to the same inode are hard links to the same
file. -/

/-- File contents as a byte list. -/
abbrev Bytes := List Nat

/-- One row of the `assets` table (`first_downloaded` timestamp not
modelled; `download_count` defaults to 1 on insert). -/
structure StoredAsset where
  waybackUrl : String
  originalUrl : String
  contentHash : String
  filePath : String
  sizeBytes : Nat
  mimeType : Option String
  domain : Option String
  timestamp : Option String
  downloadCount : Nat
deriving Repr, DecidableEq

/-- The `assets` table. -/
structure AssetDB where
  rows : List StoredAsset
deriving Repr, DecidableEq

/-- `DatabaseService.getAssetByWaybackUrl`. -/
def getAssetByWaybackUrl (db : AssetDB) (w : String) : Option StoredAsset :=
  db.rows.find? (fun a => a.waybackUrl == w)

/-- `DatabaseService.getAssetByContentHash`. -/
def getAssetByContentHash (db : AssetDB) (h : String) : Option StoredAsset :=
  db.rows.find? (fun a => a.contentHash == h)

/-- `DatabaseService.incrementAssetDownloadCount`:
`UPDATE assets SET download_count = download_count + 1 WHERE wayback_url = ?`. -/
def incrementAssetDownloadCount (db : AssetDB) (w : String) : AssetDB :=
  ⟨db.rows.map (fun a =>
    if a.waybackUrl == w then { a with downloadCount := a.downloadCount + 1 } else a)⟩

/-- `DatabaseService.saveAsset`: plain `INSERT`; `none` models the thrown
`UNIQUE` violation on `wayback_url` (which `saveAsset` rethrows). -/
def saveAsset (db : AssetDB) (row : StoredAsset) : Option AssetDB :=
  if db.rows.any (fun a => a.waybackUrl == row.waybackUrl) then none
  else some ⟨db.rows ++ [row]⟩

/-- Filesystem: paths mapped to inodes, inodes mapped to contents. -/
structure FsState where
  files : List (String × Nat)
  inodes : List (Nat × Bytes)
  nextInode : Nat
deriving Repr, DecidableEq

/-- Inode a path points at, if the path exists. -/
def fsLookup (fs : FsState) (p : String) : Option Nat :=
  (fs.files.find? (fun e => e.1 == p)).map (fun e => e.2)

/-- `fs.existsSync`. -/
def fsExists (fs : FsState) (p : String) : Bool :=
  (fsLookup fs p).isSome

/-- Contents visible at a path. -/
def fsContent (fs : FsState) (p : String) : Option Bytes :=
  match fsLookup fs p with
  | some ino => (fs.inodes.find? (fun e => e.1 == ino)).map (fun e => e.2)
  | none => none

/-- `fs.createWriteStream` + pipe: writing an existing path truncates its
inode in place (all hard links see the new bytes); a fresh path gets a
fresh inode. -/
def fsWrite (fs : FsState) (p : String) (b : Bytes) : FsState :=
  match fsLookup fs p with
  | some ino =>
    { fs with inodes := fs.inodes.map (fun e => if e.1 == ino then (e.1, b) else e) }
  | none =>
    { files := fs.files ++ [(p, fs.nextInode)],
      inodes := fs.inodes ++ [(fs.nextInode, b)],
      nextInode := fs.nextInode + 1 }

/-- `fs.unlinkSync`: drop the path, keep the inode (other links live on). -/
def fsUnlink (fs : FsState) (p : String) : FsState :=
  { fs with files := fs.files.filter (fun e => e.1 != p) }

/-- `fs.linkSync(src, dst)`: `none` models the thrown error when the
source path does not exist. -/
def fsLink (fs : FsState) (src dst : String) : Option FsState :=
  match fsLookup fs src with
  | some ino => some { fs with files := fs.files ++ [(dst, ino)] }
  | none => none

/-! ## Asset fetcher (`AssetFetcher`) -/

/-- `bytes / (1024 * 1024)` of the source as an exact rational (dividing
an integer below 2^53 by 2^20 is exact in binary64, so this coincides
with the JavaScript float). -/
def bytesToMB (n : Nat) : Rat :=
  mkRat n 1048576

/-- Upstream response to one streaming GET: success carries the optional
`Content-Length` header, the optional `Content-Type` header and the body;
an error status carries the optional `Retry-After` header. -/
inductive HttpResponse
  | ok (contentLength : Option Nat) (contentType : Option String) (body : Bytes)
  | httpError (status : Nat) (retryAfter : Option Nat)
deriving Repr, DecidableEq

/-- The upstream, indexed by the global GET counter so that scenarios such
as "429 once, then 200" are expressible. -/
abbrev Net := Nat → String → HttpResponse

/-- An exception escaping `fetchSingleAsset` (axios rejects non-2xx;
`new URL` throws `TypeError`; `saveAsset` rethrows the UNIQUE
violation). -/
inductive FetchErr
  | http (status : Nat) (retryAfter : Option Nat)
  | typeError
  | dbUnique
deriving Repr, DecidableEq

/-- `SkippedAsset` of `AssetTypes.ts`. -/
structure SkippedAsset where
  url : String
  reason : String
  sizeMB : Option Rat
  waybackUrl : String
  error : Option String
deriving Repr, DecidableEq

/-- The object `fetchSingleAsset` resolves with (absent fields are the
JavaScript `undefined`, i.e. falsy). -/
structure SingleResult where
  success : Bool
  skipped : Option SkippedAsset
  cacheHit : Bool
  contentDuplicate : Bool
  sizeMB : Option Rat
deriving Repr, DecidableEq

/-- `AssetFetcherOptions` (the fields the model exercises). -/
structure AssetFetcherOptions where
  outputDir : String
  maxAssetSizeMB : Rat
  assetDelayMs : Nat
deriving Repr, DecidableEq

/-- Mutable state threaded through a fetch run: the assets table, the
filesystem, and observation traces of the GETs issued and the delays
slept (milliseconds). -/
structure FetchState where
  db : AssetDB
  fs : FsState
  gets : List String
  delaysMs : List Nat
deriving Repr, DecidableEq

/-- Record one GET in the trace. -/
def addGet (st : FetchState) (u : String) : FetchState :=
  { st with gets := st.gets ++ [u] }

/-- Archive URL formation: do not double-wrap URLs that already point at
the archive. -/
def waybackUrlOf (assetUrl timestamp : String) : String :=
  if strStarts assetUrl "https://web.archive.org/" ||
     strStarts assetUrl "https://web-static.archive.org/" then assetUrl
  else "https://web.archive.org/web/" ++ timestamp ++ "/" ++ assetUrl

/-- `AssetFetcher.getAssetPath`: target path inside the snapshot tree,
branching on the extractor's `isExternal` flag (`path.join` modelled as
`/`-joining). -/
def getAssetPath (outputDir : String) (asset : AssetReference) (pu : ParsedUrl)
    (domain timestamp : String) : String :=
  let rel := if strStarts pu.pathname "/" then strTail pu.pathname else pu.pathname
  if asset.isExternal then
    outputDir ++ "/" ++ domain ++ "/" ++ timestamp ++ "/assets/external/" ++
      pu.hostname ++ "/" ++ rel
  else
    outputDir ++ "/" ++ domain ++ "/" ++ timestamp ++ "/assets/" ++ rel

/-- STEP 2 and STEP 3 of `AssetFetcher.fetchSingleAsset`: streaming GET,
size gate against `Content-Length` (`parseInt(header || '0')`), write to
the target path, content-hash dedup (replace the fresh file by a hard
link to the canonical one), and `saveAsset` with
`filePath = existingAsset?.file_path || assetPath` and
`sizeBytes = contentLength`. -/
def downloadAsset (hashFn : Bytes → String) (opts : AssetFetcherOptions) (net : Net)
    (st : FetchState) (asset : AssetReference) (domain timestamp waybackUrl : String) :
    FetchState × Except FetchErr SingleResult :=
  match net st.gets.length waybackUrl with
  | .httpError status retryAfter =>
    let st := addGet st waybackUrl
    if status == 404 then
      (st, .ok { success := false,
                 skipped := some { url := asset.url, reason := "fetch_error",
                                   sizeMB := none, waybackUrl := waybackUrl,
                                   error := some "404 Not Found in Wayback Machine" },
                 cacheHit := false, contentDuplicate := false, sizeMB := none })
    else
      (st, .error (.http status retryAfter))
  | .ok contentLengthHdr contentType body =>
    let st := addGet st waybackUrl
    let contentLength : Nat := contentLengthHdr.getD 0
    let sizeMB : Rat := bytesToMB contentLength
    if sizeMB > opts.maxAssetSizeMB then
      (st, .ok { success := false,
                 skipped := some { url := asset.url, reason := "size_limit",
                                   sizeMB := some sizeMB, waybackUrl := waybackUrl,
                                   error := none },
                 cacheHit := false, contentDuplicate := false, sizeMB := none })
    else
      match parseUrl asset.url with
      | none => (st, .error .typeError)
      | some pu =>
        let assetPath := getAssetPath opts.outputDir asset pu domain timestamp
        let fs1 := fsWrite st.fs assetPath body
        let contentHash := hashFn body
        let existing := getAssetByContentHash st.db contentHash
        let fs2 :=
          match existing with
          | some e =>
            if e.filePath != assetPath then
              let fsU := fsUnlink fs1 assetPath
              match fsLink fsU e.filePath assetPath with
              | some fsL => fsL
              | none => fsU
            else fs1
          | none => fs1
        let row : StoredAsset :=
          { waybackUrl := waybackUrl, originalUrl := asset.url,
            contentHash := contentHash,
            filePath := match existing with
                        | some e => e.filePath
                        | none => assetPath,
            sizeBytes := contentLength, mimeType := contentType,
            domain := some domain, timestamp := some timestamp,
            downloadCount := 1 }
        match saveAsset st.db row with
        | none => ({ st with fs := fs2 }, .error .dbUnique)
        | some db2 =>
          let st2 := { st with db := db2, fs := fs2 }
          match existing with
          | some e =>
            if e.filePath != assetPath then
              (st2, .ok { success := true, skipped := none, cacheHit := false,
                          contentDuplicate := true, sizeMB := none })
            else
              (st2, .ok { success := true, skipped := none, cacheHit := false,
                          contentDuplicate := false, sizeMB := none })
          | none =>
            (st2, .ok { success := true, skipped := none, cacheHit := false,
                        contentDuplicate := false, sizeMB := none })

/-- `AssetFetcher.fetchSingleAsset`: STEP 1 consults the URL-identity
cache; a hit materializes a hard link (unless the target already exists),
increments the download count and reports `cacheHit` with the stored size
in MB; a failed link falls through to the download path. -/
def fetchSingleAsset (hashFn : Bytes → String) (opts : AssetFetcherOptions) (net : Net)
    (st : FetchState) (asset : AssetReference) (domain timestamp : String) :
    FetchState × Except FetchErr SingleResult :=
  let waybackUrl := waybackUrlOf asset.url timestamp
  match getAssetByWaybackUrl st.db waybackUrl with
  | some cached =>
    match parseUrl asset.url with
    | none => (st, .error .typeError)
    | some pu =>
      let assetPath := getAssetPath opts.outputDir asset pu domain timestamp
      if fsExists st.fs assetPath then
        ({ st with db := incrementAssetDownloadCount st.db waybackUrl },
         .ok { success := false, skipped := none, cacheHit := true,
               contentDuplicate := false,
               sizeMB := some (bytesToMB cached.sizeBytes) })
      else
        match fsLink st.fs cached.filePath assetPath with
        | some fs2 =>
          ({ st with db := incrementAssetDownloadCount st.db waybackUrl, fs := fs2 },
           .ok { success := false, skipped := none, cacheHit := true,
                 contentDuplicate := false,
                 sizeMB := some (bytesToMB cached.sizeBytes) })
        | none => downloadAsset hashFn opts net st asset domain timestamp waybackUrl
  | none => downloadAsset hashFn opts net st asset domain timestamp waybackUrl

/-- `deduplication` block of `FetchResult`. -/
structure DedupStats where
  cacheHits : Nat
  contentDuplicates : Nat
  bandwidthSavedMB : Rat
deriving Repr, DecidableEq

/-- `FetchResult` of `AssetFetcher.ts`. -/
structure FetchResult where
  fetched : List AssetReference
  skipped : List SkippedAsset
  errors : List (AssetReference × String)
  deduplication : DedupStats
deriving Repr, DecidableEq

/-- The result object `fetchAssets` initializes. -/
def emptyFetchResult : FetchResult :=
  ⟨[], [], [], ⟨0, 0, 0⟩⟩

/-- `AssetFetcher.formatError` restricted to the error shapes the model
produces. -/
def formatError (e : FetchErr) : String :=
  match e with
  | .http status _ =>
    if status == 401 then "401 Unauthorized - auth cookies may be expired"
    else if status == 403 then "403 Forbidden - access denied"
    else if status == 404 then "404 Not Found in Wayback Machine"
    else if status == 429 then "429 Rate Limited"
    else if status == 500 then "500 Server Error"
    else if status == 503 then "503 Service Unavailable"
    else toString status ++ " "
  | .typeError => "Invalid URL"
  | .dbUnique => "UNIQUE constraint failed: assets.wayback_url"

/-- The `if / else if` chain of the `fetchAssets` loop body on a resolved
`fetchSingleAsset`.  `success` is tested first, so the
`contentDuplicate` branch is reachable only with `success = false`. -/
def recordSingle (result : FetchResult) (asset : AssetReference) (r : SingleResult) :
    FetchResult :=
  if r.success then
    { result with fetched := result.fetched ++ [asset] }
  else if r.skipped.isSome then
    { result with skipped := result.skipped ++ r.skipped.toList }
  else if r.cacheHit then
    { result with deduplication :=
        { result.deduplication with
          cacheHits := result.deduplication.cacheHits + 1,
          bandwidthSavedMB := result.deduplication.bandwidthSavedMB + r.sizeMB.getD 0 } }
  else if r.contentDuplicate then
    { result with
      deduplication :=
        { result.deduplication with
          contentDuplicates := result.deduplication.contentDuplicates + 1 },
      fetched := result.fetched ++ [asset] }
  else result

/-- The sequential loop of `AssetFetcher.fetchAssets`: inter-asset delay
before every fetch but the first; a thrown error is recorded in
`errors[]`, and a 429 additionally sleeps `Retry-After` (default 60)
seconds before continuing with the NEXT asset — there is no retry. -/
def fetchAssetsLoop (hashFn : Bytes → String) (opts : AssetFetcherOptions) (net : Net)
    (domain timestamp : String) :
    List AssetReference → Nat → FetchState → FetchResult → FetchState × FetchResult
  | [], _, st, result => (st, result)
  | asset :: rest, i, st, result =>
    let st0 := if i > 0 then { st with delaysMs := st.delaysMs ++ [opts.assetDelayMs] } else st
    match fetchSingleAsset hashFn opts net st0 asset domain timestamp with
    | (st1, .ok r) =>
      fetchAssetsLoop hashFn opts net domain timestamp rest (i + 1) st1
        (recordSingle result asset r)
    | (st1, .error e) =>
      let result2 := { result with errors := result.errors ++ [(asset, formatError e)] }
      let st2 :=
        match e with
        | .http 429 retryAfter =>
          { st1 with delaysMs := st1.delaysMs ++ [retryAfter.getD 60 * 1000] }
        | _ => st1
      fetchAssetsLoop hashFn opts net domain timestamp rest (i + 1) st2 result2

/-- `AssetFetcher.fetchAssets`. -/
def fetchAssets (hashFn : Bytes → String) (opts : AssetFetcherOptions) (net : Net)
    (assets : List AssetReference) (domain timestamp : String) (st : FetchState) :
    FetchState × FetchResult :=
  fetchAssetsLoop hashFn opts net domain timestamp assets 0 st emptyFetchResult

/-- Contents of `skipped_assets.json` as written by
`WaybackCrawler.saveSkippedAssets`, guarded by the non-emptiness test in
`processPageWithAssets`. -/
structure SkippedAssetsFile where
  domain : String
  timestamp : String
  skipped : List SkippedAsset
deriving Repr, DecidableEq

/-- `processPageWithAssets` writes `skipped_assets.json` exactly when the
skip list is non-empty. -/
def skippedAssetsFileContent (result : FetchResult) (domain timestamp : String) :
    Option SkippedAssetsFile :=
  if result.skipped.length > 0 then some ⟨domain, timestamp, result.skipped⟩ else none

/-- Stand-in for SHA-256: the fetcher only compares digests for equality,
and this model digest is injective on byte lists, so dedup decisions
coincide with those of a collision-free hash. -/
def sha256Model (b : Bytes) : String :=
  toString b

/-! ## Concrete scenario data

Inputs for the concrete scenarios of the specification (S1 cache hit,
S2 content duplicate, S3 size gate, S4 rate limit) and for the implicit
missing-Content-Length behaviour, used to evaluate the model at explicit
inputs. -/

/-- Fetcher options: 50 MB limit, 100 ms pacing, output under `out`. -/
def demoOpts : AssetFetcherOptions :=
  ⟨"out", 50, 100⟩

/-- Empty databases, empty filesystem, empty traces. -/
def emptyState : FetchState :=
  ⟨⟨[]⟩, ⟨[], [], 0⟩, [], []⟩

/-- The timestamp used by the concrete scenarios. -/
def tsDemo : String :=
  "20230101000000"

/-- S1: the page references this same-domain logo. -/
def logoAsset : AssetReference :=
  ⟨"https://ex.com/logo.png", .image, "index.html", false⟩

/-- S1: the archive URL of the logo at `tsDemo`. -/
def logoWayback : String :=
  "https://web.archive.org/web/20230101000000/https://ex.com/logo.png"

/-- S1: pre-seeded store row for the logo (500 bytes, one download). -/
def logoStored : StoredAsset :=
  ⟨logoWayback, "https://ex.com/logo.png", "H", "store/ex.com/logo.png", 500,
   none, none, none, 1⟩

/-- S1: store holds the logo file at inode 7; the snapshot tree is empty. -/
def s1State : FetchState :=
  ⟨⟨[logoStored]⟩, ⟨[("store/ex.com/logo.png", 7)], [(7, [1, 2])], 100⟩, [], []⟩

/-- A network that refuses everything — S1 must not touch it. -/
def offlineNet : Net :=
  fun _ _ => .httpError 500 none

/-- S2: two distinct same-domain URLs. -/
def aPng : AssetReference :=
  ⟨"https://ex.com/a.png", .image, "index.html", false⟩

/-- S2: second asset with different URL but identical bytes. -/
def bPng : AssetReference :=
  ⟨"https://ex.com/b.png", .image, "index.html", false⟩

/-- S2: the upstream serves the same 3 bytes for every URL. -/
def dupNet : Net :=
  fun _ _ => .ok (some 3) (some "image/png") [9, 9, 9]

/-- S2: snapshot-tree paths of the two assets. -/
def aPath : String :=
  "out/ex.com/20230101000000/assets/a.png"

/-- S2: path of the second asset. -/
def bPath : String :=
  "out/ex.com/20230101000000/assets/b.png"

/-- S2: the complete two-asset run. -/
def dupRun : FetchState × FetchResult :=
  fetchAssets sha256Model demoOpts dupNet [aPng, bPng] "ex.com" tsDemo emptyState

/-- S3: `Content-Length: 104857600` (100 MB). -/
def bigNet : Net :=
  fun _ _ => .ok (some 104857600) none [1]

/-- S4: 429 with `Retry-After: 5` on the first call, then success. -/
def rateNet : Net :=
  fun i _ => if i == 0 then .httpError 429 (some 5) else .ok (some 3) none [1, 2, 3]

/-- A response with no `Content-Length` header and a 5-byte body. -/
def noLenNet : Net :=
  fun _ _ => .ok none (some "text/css") [1, 2, 3, 4, 5]

/-- A page with one internal anchor, for link discovery. -/
def demoDoc : List HtmlElement :=
  [⟨"a", [("href", "/about")], none⟩]

/-- The queue row link discovery creates from `demoDoc`. -/
def aboutRow : UrlRow :=
  ⟨"https://ex.com/about", "20230101000000", "ex.com", "pending", none, none, false⟩

/-! ## Shared lemmas -/

/-- A key is present iff it owns at least one row. -/
theorem hasKey_iff (s : CrawlerDBState) (u t : String) :
    hasKey s u t = true ↔ 0 < countKey s u t := by
  simp [hasKey, countKey, List.any_eq_true, List.length_pos, List.filter_eq_nil_iff]

/-- Incrementing the download count rewrites exactly the looked-up row. -/
theorem getAssetByWaybackUrl_increment (db : AssetDB) (w : String) :
    getAssetByWaybackUrl (incrementAssetDownloadCount db w) w =
      (getAssetByWaybackUrl db w).map
        (fun a => { a with downloadCount := a.downloadCount + 1 }) := by
  obtain ⟨rows⟩ := db
  unfold getAssetByWaybackUrl incrementAssetDownloadCount
  induction rows with
  | nil => simp
  | cons a rest ih =>
    by_cases h : a.waybackUrl = w
    · simp [List.find?_cons, h]
    · simpa [List.find?_cons, h] using ih

/-- Linking a fresh path makes it resolve to the linked inode. -/
theorem fsLookup_append_new (fs : FsState) (p : String) (ino : Nat)
    (hnone : fsLookup fs p = none) :
    fsLookup { fs with files := fs.files ++ [(p, ino)] } p = some ino := by
  unfold fsLookup at *
  rcases hf : fs.files.find? (fun e => e.1 == p) with _ | e
  · rw [List.find?_append, hf]
    simp [List.find?_cons]
  · rw [hf] at hnone
    simp at hnone

/-- Linking a fresh path leaves existing paths untouched. -/
theorem fsLookup_append_old (fs : FsState) (p q : String) (i2 ino : Nat)
    (h : fsLookup fs q = some ino) :
    fsLookup { fs with files := fs.files ++ [(p, i2)] } q = some ino := by
  unfold fsLookup at *
  rcases hf : fs.files.find? (fun e => e.1 == q) with _ | e
  · rw [hf] at h
    simp at h
  · rw [List.find?_append, hf]
    rw [hf] at h
    simpa using h

/-- `saveAsset` succeeds when the archive URL is not yet recorded. -/
theorem saveAsset_of_miss (db : AssetDB) (row : StoredAsset)
    (hmiss : getAssetByWaybackUrl db row.waybackUrl = none) :
    saveAsset db row = some ⟨db.rows ++ [row]⟩ := by
  unfold getAssetByWaybackUrl at hmiss
  unfold saveAsset
  rw [if_neg]
  simp only [List.any_eq_true, not_exists, not_and]
  intro a ha
  have := List.find?_eq_none.mp hmiss a ha
  simpa using this

/-- After a fresh insert, the inserted row is the lookup result. -/
theorem getAssetByWaybackUrl_snoc (rows : List StoredAsset) (row : StoredAsset)
    (hmiss : getAssetByWaybackUrl ⟨rows⟩ row.waybackUrl = none) :
    getAssetByWaybackUrl ⟨rows ++ [row]⟩ row.waybackUrl = some row := by
  unfold getAssetByWaybackUrl at *
  rw [List.find?_append]
  simp only at hmiss
  rw [hmiss]
  simp [List.find?_cons]

/-- A run over a single asset is one `fetchSingleAsset` step recorded into
the empty result. -/
theorem fetchAssets_singleton (hashFn : Bytes → String) (opts : AssetFetcherOptions)
    (net : Net) (asset : AssetReference) (domain ts : String) (st : FetchState) :
    fetchAssets hashFn opts net [asset] domain ts st =
      match fetchSingleAsset hashFn opts net st asset domain ts with
      | (st1, .ok r) => (st1, recordSingle emptyFetchResult asset r)
      | (st1, .error e) =>
        ((match e with
          | .http 429 ra => { st1 with delaysMs := st1.delaysMs ++ [ra.getD 60 * 1000] }
          | _ => st1),
         { emptyFetchResult with errors := [(asset, formatError e)] }) := by
  unfold fetchAssets fetchAssetsLoop
  simp only [gt_iff_lt, lt_self_iff_false, if_false]
  cases h : fetchSingleAsset hashFn opts net st asset domain ts with
  | mk st1 r =>
    cases r with
    | ok rr => simp [fetchAssetsLoop]
    | error e => cases e <;> simp [fetchAssetsLoop, emptyFetchResult]

/-- Behaviour of `fetchSingleAsset` on a URL-identity cache hit with a
healthy store file and an absent target path. -/
theorem fetchSingleAsset_cacheHit (hashFn : Bytes → String) (opts : AssetFetcherOptions)
    (net : Net) (st : FetchState) (asset : AssetReference) (domain ts : String)
    (cached : StoredAsset) (pu : ParsedUrl) (ino : Nat)
    (hhit : getAssetByWaybackUrl st.db (waybackUrlOf asset.url ts) = some cached)
    (hpu : parseUrl asset.url = some pu)
    (hsrc : fsLookup st.fs cached.filePath = some ino)
    (htgt : fsLookup st.fs (getAssetPath opts.outputDir asset pu domain ts) = none) :
    fetchSingleAsset hashFn opts net st asset domain ts =
      ({ st with db := incrementAssetDownloadCount st.db (waybackUrlOf asset.url ts),
                 fs := { st.fs with files :=
                   st.fs.files ++ [(getAssetPath opts.outputDir asset pu domain ts, ino)] } },
       .ok { success := false, skipped := none, cacheHit := true, contentDuplicate := false,
             sizeMB := some (bytesToMB cached.sizeBytes) }) := by
  have hex : fsExists st.fs (getAssetPath opts.outputDir asset pu domain ts) = false := by
    unfold fsExists
    rw [htgt]
    rfl
  unfold fetchSingleAsset
  dsimp only
  rw [hhit]
  dsimp only
  rw [hpu]
  dsimp only
  rw [hex]
  unfold fsLink
  rw [hsrc]
  simp

/-- Behaviour of `fetchSingleAsset` on a 429 response: the error is
rethrown to the fetch loop after the GET is recorded. -/
theorem fetchSingleAsset_rateLimited (hashFn : Bytes → String) (opts : AssetFetcherOptions)
    (net : Net) (st : FetchState) (asset : AssetReference) (domain ts : String)
    (ra : Option Nat)
    (hmiss : getAssetByWaybackUrl st.db (waybackUrlOf asset.url ts) = none)
    (hnet : net st.gets.length (waybackUrlOf asset.url ts) = .httpError 429 ra) :
    fetchSingleAsset hashFn opts net st asset domain ts =
      (addGet st (waybackUrlOf asset.url ts), .error (.http 429 ra)) := by
  unfold fetchSingleAsset downloadAsset
  dsimp only
  rw [hmiss]
  dsimp only
  rw [hnet]
  simp

/-- Behaviour of `fetchSingleAsset` on a size-limit violation. -/
theorem fetchSingleAsset_sizeLimit (hashFn : Bytes → String) (opts : AssetFetcherOptions)
    (net : Net) (st : FetchState) (asset : AssetReference) (domain ts : String)
    (len : Nat) (ct : Option String) (body : Bytes)
    (hmiss : getAssetByWaybackUrl st.db (waybackUrlOf asset.url ts) = none)
    (hnet : net st.gets.length (waybackUrlOf asset.url ts) = .ok (some len) ct body)
    (hbig : bytesToMB len > opts.maxAssetSizeMB) :
    fetchSingleAsset hashFn opts net st asset domain ts =
      (addGet st (waybackUrlOf asset.url ts),
       .ok { success := false,
             skipped := some ⟨asset.url, "size_limit", some (bytesToMB len),
                              waybackUrlOf asset.url ts, none⟩,
             cacheHit := false, contentDuplicate := false, sizeMB := none }) := by
  unfold fetchSingleAsset downloadAsset
  dsimp only
  rw [hmiss]
  dsimp only
  rw [hnet]
  simp [hbig]

/-! ## Claim theorems -/

/-- Claim C1: on a URL-identity cache hit, `fetchAssets` issues no GET for
the asset, creates the target path as a hard link to the stored
`file_path` (same inode), increments `download_count` by one, and reports
one cache hit with `size_bytes` converted to megabytes added to
`bandwidthSavedMB`; nothing is fetched, skipped or errored. -/
theorem fetchAssets_cacheHit_spec (hashFn : Bytes → String) (opts : AssetFetcherOptions)
    (net : Net) (st : FetchState) (asset : AssetReference) (domain ts : String)
    (cached : StoredAsset) (pu : ParsedUrl) (ino : Nat)
    (hhit : getAssetByWaybackUrl st.db (waybackUrlOf asset.url ts) = some cached)
    (hpu : parseUrl asset.url = some pu)
    (hsrc : fsLookup st.fs cached.filePath = some ino)
    (htgt : fsLookup st.fs (getAssetPath opts.outputDir asset pu domain ts) = none) :
    (fetchAssets hashFn opts net [asset] domain ts st).1.gets = st.gets ∧
    fsLookup (fetchAssets hashFn opts net [asset] domain ts st).1.fs
      (getAssetPath opts.outputDir asset pu domain ts) = some ino ∧
    fsLookup (fetchAssets hashFn opts net [asset] domain ts st).1.fs cached.filePath =
      some ino ∧
    getAssetByWaybackUrl (fetchAssets hashFn opts net [asset] domain ts st).1.db
      (waybackUrlOf asset.url ts) =
      some { cached with downloadCount := cached.downloadCount + 1 } ∧
    (fetchAssets hashFn opts net [asset] domain ts st).2.deduplication.cacheHits = 1 ∧
    (fetchAssets hashFn opts net [asset] domain ts st).2.deduplication.bandwidthSavedMB =
      bytesToMB cached.sizeBytes ∧
    (fetchAssets hashFn opts net [asset] domain ts st).2.fetched = [] ∧
    (fetchAssets hashFn opts net [asset] domain ts st).2.skipped = [] ∧
    (fetchAssets hashFn opts net [asset] domain ts st).2.errors = [] := by
  rw [fetchAssets_singleton,
    fetchSingleAsset_cacheHit hashFn opts net st asset domain ts cached pu ino
      hhit hpu hsrc htgt]
  refine ⟨rfl, ?_, ?_, ?_, rfl, ?_, rfl, rfl, rfl⟩
  · exact fsLookup_append_new st.fs _ ino htgt
  · exact fsLookup_append_old st.fs _ cached.filePath ino ino hsrc
  · rw [show ({ st with
        db := incrementAssetDownloadCount st.db (waybackUrlOf asset.url ts),
        fs := { st.fs with files :=
          st.fs.files ++ [(getAssetPath opts.outputDir asset pu domain ts, ino)] } } :
          FetchState).db =
        incrementAssetDownloadCount st.db (waybackUrlOf asset.url ts) from rfl]
    rw [getAssetByWaybackUrl_increment, hhit]
    rfl
  · simp [recordSingle, emptyFetchResult]

/-- Claim C1 witness: scenario S1 — the pre-seeded 500-byte logo is
materialized from the store without touching the network, its
`download_count` goes from 1 to 2, and `bandwidthSavedMB` is
`500 / 2^20`. -/
theorem fetchAssets_cacheHit_spec_witness :
    getAssetByWaybackUrl s1State.db (waybackUrlOf logoAsset.url "20230101000000") =
      some logoStored ∧
    parseUrl logoAsset.url = some ⟨"https://", "ex.com", "/logo.png"⟩ ∧
    fsLookup s1State.fs logoStored.filePath = some 7 ∧
    fsLookup s1State.fs
      (getAssetPath demoOpts.outputDir logoAsset ⟨"https://", "ex.com", "/logo.png"⟩
        "ex.com" "20230101000000") = none ∧
    ((fetchAssets sha256Model demoOpts offlineNet [logoAsset] "ex.com" "20230101000000"
        s1State).1.gets = s1State.gets ∧
     fsLookup (fetchAssets sha256Model demoOpts offlineNet [logoAsset] "ex.com"
        "20230101000000" s1State).1.fs
       (getAssetPath demoOpts.outputDir logoAsset ⟨"https://", "ex.com", "/logo.png"⟩
         "ex.com" "20230101000000") = some 7 ∧
     fsLookup (fetchAssets sha256Model demoOpts offlineNet [logoAsset] "ex.com"
        "20230101000000" s1State).1.fs logoStored.filePath = some 7 ∧
     getAssetByWaybackUrl (fetchAssets sha256Model demoOpts offlineNet [logoAsset] "ex.com"
        "20230101000000" s1State).1.db (waybackUrlOf logoAsset.url "20230101000000") =
       some { logoStored with downloadCount := logoStored.downloadCount + 1 } ∧
     (fetchAssets sha256Model demoOpts offlineNet [logoAsset] "ex.com" "20230101000000"
        s1State).2.deduplication.cacheHits = 1 ∧
     (fetchAssets sha256Model demoOpts offlineNet [logoAsset] "ex.com" "20230101000000"
        s1State).2.deduplication.bandwidthSavedMB = bytesToMB logoStored.sizeBytes ∧
     (fetchAssets sha256Model demoOpts offlineNet [logoAsset] "ex.com" "20230101000000"
        s1State).2.fetched = [] ∧
     (fetchAssets sha256Model demoOpts offlineNet [logoAsset] "ex.com" "20230101000000"
        s1State).2.skipped = [] ∧
     (fetchAssets sha256Model demoOpts offlineNet [logoAsset] "ex.com" "20230101000000"
        s1State).2.errors = []) :=
  ⟨by decide, by decide, by decide, by decide,
   fetchAssets_cacheHit_spec sha256Model demoOpts offlineNet s1State logoAsset "ex.com"
     "20230101000000" logoStored ⟨"https://", "ex.com", "/logo.png"⟩ 7
     (by decide) (by decide) (by decide) (by decide)⟩

/-- Claim C4: when the `Content-Length` header converted to megabytes
exceeds `maxAssetSizeMB`, nothing is written (filesystem and asset table
unchanged), a `size_limit` skip with the size in MB is returned in
`FetchResult.skipped`, and that skip is the content written to
`skipped_assets.json`. -/
theorem fetchAssets_size_gate_spec (hashFn : Bytes → String) (opts : AssetFetcherOptions)
    (net : Net) (st : FetchState) (asset : AssetReference) (domain ts : String)
    (len : Nat) (ct : Option String) (body : Bytes)
    (hmiss : getAssetByWaybackUrl st.db (waybackUrlOf asset.url ts) = none)
    (hnet : net st.gets.length (waybackUrlOf asset.url ts) = .ok (some len) ct body)
    (hbig : bytesToMB len > opts.maxAssetSizeMB) :
    (fetchAssets hashFn opts net [asset] domain ts st).2.skipped =
      [⟨asset.url, "size_limit", some (bytesToMB len),
        waybackUrlOf asset.url ts, none⟩] ∧
    (fetchAssets hashFn opts net [asset] domain ts st).1.fs = st.fs ∧
    (fetchAssets hashFn opts net [asset] domain ts st).1.db = st.db ∧
    (fetchAssets hashFn opts net [asset] domain ts st).2.fetched = [] ∧
    skippedAssetsFileContent (fetchAssets hashFn opts net [asset] domain ts st).2 domain ts =
      some ⟨domain, ts,
        [⟨asset.url, "size_limit", some (bytesToMB len),
          waybackUrlOf asset.url ts, none⟩]⟩ := by
  rw [fetchAssets_singleton,
    fetchSingleAsset_sizeLimit hashFn opts net st asset domain ts len ct body
      hmiss hnet hbig]
  refine ⟨?_, rfl, rfl, ?_, ?_⟩
  · simp [recordSingle, emptyFetchResult]
  · simp [recordSingle, emptyFetchResult]
  · simp [recordSingle, emptyFetchResult, skippedAssetsFileContent]

/-- Claim C4 witness: scenario S3 — a 100 MB `Content-Length` against a
50 MB limit is skipped with `sizeMB = 100` and lands in
`skipped_assets.json`. -/
theorem fetchAssets_size_gate_spec_witness :
    getAssetByWaybackUrl emptyState.db (waybackUrlOf aPng.url tsDemo) = none ∧
    bigNet emptyState.gets.length (waybackUrlOf aPng.url tsDemo) =
      .ok (some 104857600) none [1] ∧
    bytesToMB 104857600 > demoOpts.maxAssetSizeMB ∧
    ((fetchAssets sha256Model demoOpts bigNet [aPng] "ex.com" tsDemo emptyState).2.skipped =
      [⟨aPng.url, "size_limit", some (bytesToMB 104857600),
        waybackUrlOf aPng.url tsDemo, none⟩] ∧
     (fetchAssets sha256Model demoOpts bigNet [aPng] "ex.com" tsDemo emptyState).1.fs =
       emptyState.fs ∧
     (fetchAssets sha256Model demoOpts bigNet [aPng] "ex.com" tsDemo emptyState).1.db =
       emptyState.db ∧
     (fetchAssets sha256Model demoOpts bigNet [aPng] "ex.com" tsDemo emptyState).2.fetched =
       [] ∧
     skippedAssetsFileContent
       (fetchAssets sha256Model demoOpts bigNet [aPng] "ex.com" tsDemo emptyState).2
       "ex.com" tsDemo =
       some ⟨"ex.com", tsDemo,
         [⟨aPng.url, "size_limit", some (bytesToMB 104857600),
           waybackUrlOf aPng.url tsDemo, none⟩]⟩) :=
  ⟨by decide, by decide, by decide,
   fetchAssets_size_gate_spec sha256Model demoOpts bigNet emptyState aPng "ex.com" tsDemo
     104857600 none [1] (by decide) (by decide) (by decide)⟩

/-- Claim C10: with no `Content-Length` header the fetcher takes the size
to be 0 (`parseInt(header || '0')`), so for a non-negative limit the size
gate never skips — whatever the streamed body is — the asset succeeds, and
the persisted row records `size_bytes = 0` rather than the bytes
written. -/
theorem fetchSingleAsset_noContentLength_spec (hashFn : Bytes → String)
    (opts : AssetFetcherOptions) (net : Net) (st : FetchState) (asset : AssetReference)
    (domain ts : String) (ct : Option String) (body : Bytes) (pu : ParsedUrl)
    (hmiss : getAssetByWaybackUrl st.db (waybackUrlOf asset.url ts) = none)
    (hnet : net st.gets.length (waybackUrlOf asset.url ts) = .ok none ct body)
    (hmax : 0 ≤ opts.maxAssetSizeMB)
    (hpu : parseUrl asset.url = some pu) :
    ∃ st2 r, fetchSingleAsset hashFn opts net st asset domain ts = (st2, .ok r) ∧
      r.success = true ∧ r.skipped = none ∧
      ∃ row, getAssetByWaybackUrl st2.db (waybackUrlOf asset.url ts) = some row ∧
        row.sizeBytes = 0 := by
  unfold fetchSingleAsset downloadAsset
  dsimp only
  rw [hmiss]
  dsimp only
  rw [hnet]
  dsimp only [Option.getD]
  rw [if_neg (by simpa [bytesToMB] using hmax)]
  rw [hpu]
  dsimp only [addGet]
  split
  · rename_i heq
    rw [saveAsset_of_miss st.db _ hmiss] at heq
    simp at heq
  · rename_i db2 heq
    rw [saveAsset_of_miss st.db _ hmiss] at heq
    injection heq with hdb2
    subst hdb2
    split
    · split
      · exact ⟨_, _, rfl, rfl, rfl, _, getAssetByWaybackUrl_snoc st.db.rows _ hmiss, rfl⟩
      · exact ⟨_, _, rfl, rfl, rfl, _, getAssetByWaybackUrl_snoc st.db.rows _ hmiss, rfl⟩
    · exact ⟨_, _, rfl, rfl, rfl, _, getAssetByWaybackUrl_snoc st.db.rows _ hmiss, rfl⟩

/-- Claim C10 witness: a headerless 5-byte response passes the gate and is
recorded with `size_bytes = 0`. -/
theorem fetchSingleAsset_noContentLength_spec_witness :
    getAssetByWaybackUrl emptyState.db (waybackUrlOf aPng.url tsDemo) = none ∧
    noLenNet emptyState.gets.length (waybackUrlOf aPng.url tsDemo) =
      .ok none (some "text/css") [1, 2, 3, 4, 5] ∧
    (0 : Rat) ≤ demoOpts.maxAssetSizeMB ∧
    parseUrl aPng.url = some ⟨"https://", "ex.com", "/a.png"⟩ ∧
    (∃ st2 r, fetchSingleAsset sha256Model demoOpts noLenNet emptyState aPng "ex.com"
        tsDemo = (st2, .ok r) ∧
      r.success = true ∧ r.skipped = none ∧
      ∃ row, getAssetByWaybackUrl st2.db (waybackUrlOf aPng.url tsDemo) = some row ∧
        row.sizeBytes = 0) :=
  ⟨by decide, by decide, by decide, by decide,
   fetchSingleAsset_noContentLength_spec sha256Model demoOpts noLenNet emptyState aPng
     "ex.com" tsDemo (some "text/css") [1, 2, 3, 4, 5] ⟨"https://", "ex.com", "/a.png"⟩
     (by decide) (by decide) (by decide) (by decide)⟩

/-- Claim C3 counterexample: scenario S4 — the upstream 429s once with
`Retry-After: 5` and would serve the asset on any later attempt (last
conjunct), yet the run ends with the asset absent from `fetched`, exactly
one GET issued (no retry), and the asset recorded as an error instead. -/
theorem fetchAssets_429_no_retry_counterexample :
    (fetchAssets sha256Model demoOpts rateNet [aPng] "ex.com" tsDemo emptyState).2.fetched =
      [] ∧
    (fetchAssets sha256Model demoOpts rateNet [aPng] "ex.com" tsDemo
      emptyState).1.gets.length = 1 ∧
    (fetchAssets sha256Model demoOpts rateNet [aPng] "ex.com" tsDemo emptyState).2.errors =
      [(aPng, "429 Rate Limited")] ∧
    (fetchAssets sha256Model demoOpts rateNet [aPng] "ex.com" tsDemo emptyState).1.delaysMs =
      [5000] ∧
    rateNet 1 (waybackUrlOf aPng.url tsDemo) = .ok (some 3) none [1, 2, 3] := by
  decide

/-- Claim C3 (amended): on a 429 the fetcher does not retry: it records
the asset in `errors[]` (so it is not silently lost), sleeps `Retry-After`
(default 60) seconds after the single GET, and moves on; the asset is not
in `fetched`. -/
theorem fetchAssets_429_records_error (hashFn : Bytes → String)
    (opts : AssetFetcherOptions) (net : Net) (st : FetchState) (asset : AssetReference)
    (domain ts : String) (ra : Option Nat)
    (hmiss : getAssetByWaybackUrl st.db (waybackUrlOf asset.url ts) = none)
    (hnet : net st.gets.length (waybackUrlOf asset.url ts) = .httpError 429 ra) :
    (fetchAssets hashFn opts net [asset] domain ts st).2.errors =
      [(asset, "429 Rate Limited")] ∧
    (fetchAssets hashFn opts net [asset] domain ts st).2.fetched = [] ∧
    (fetchAssets hashFn opts net [asset] domain ts st).2.skipped = [] ∧
    (fetchAssets hashFn opts net [asset] domain ts st).1.delaysMs =
      st.delaysMs ++ [ra.getD 60 * 1000] ∧
    (fetchAssets hashFn opts net [asset] domain ts st).1.gets =
      st.gets ++ [waybackUrlOf asset.url ts] := by
  rw [fetchAssets_singleton,
    fetchSingleAsset_rateLimited hashFn opts net st asset domain ts ra hmiss hnet]
  exact ⟨rfl, rfl, rfl, rfl, rfl⟩

/-- Claim C3 (amended) witness: S4 instantiated — the 429'd asset is
surfaced as an error after a 5000 ms pause. -/
theorem fetchAssets_429_records_error_witness :
    getAssetByWaybackUrl emptyState.db (waybackUrlOf aPng.url tsDemo) = none ∧
    rateNet emptyState.gets.length (waybackUrlOf aPng.url tsDemo) =
      .httpError 429 (some 5) ∧
    ((fetchAssets sha256Model demoOpts rateNet [aPng] "ex.com" tsDemo emptyState).2.errors =
      [(aPng, "429 Rate Limited")] ∧
     (fetchAssets sha256Model demoOpts rateNet [aPng] "ex.com" tsDemo emptyState).2.fetched =
       [] ∧
     (fetchAssets sha256Model demoOpts rateNet [aPng] "ex.com" tsDemo emptyState).2.skipped =
       [] ∧
     (fetchAssets sha256Model demoOpts rateNet [aPng] "ex.com" tsDemo
       emptyState).1.delaysMs = emptyState.delaysMs ++ [(some 5).getD 60 * 1000] ∧
     (fetchAssets sha256Model demoOpts rateNet [aPng] "ex.com" tsDemo emptyState).1.gets =
       emptyState.gets ++ [waybackUrlOf aPng.url tsDemo]) :=
  ⟨by decide, by decide,
   fetchAssets_429_records_error sha256Model demoOpts rateNet emptyState aPng "ex.com"
     tsDemo (some 5) (by decide) (by decide)⟩

/-- Claim C2 (code bug): scenario S2 — two distinct archive URLs with
identical bytes.  The code does perform one GET each, keeps one canonical
file (both snapshot paths resolve to the same inode 0) and points the
second row's `file_path` at the first file, but the returned
`deduplication.contentDuplicates` stays 0: `fetchSingleAsset` resolves
with `success: true, contentDuplicate: true`, and the `fetchAssets`
branch chain tests `success` first, so the `contentDuplicates++` branch
is unreachable. -/
theorem fetchAssets_contentDuplicate_not_counted :
    dupRun.2.deduplication.contentDuplicates = 0 ∧
    dupRun.1.gets.length = 2 ∧
    fsLookup dupRun.1.fs aPath = some 0 ∧
    fsLookup dupRun.1.fs bPath = some 0 ∧
    (getAssetByWaybackUrl dupRun.1.db (waybackUrlOf bPng.url tsDemo)).map
      (fun row => row.filePath) = some aPath ∧
    dupRun.2.fetched = [aPng, bPng] ∧
    (fetchSingleAsset sha256Model demoOpts dupNet
        (fetchAssets sha256Model demoOpts dupNet [aPng] "ex.com" tsDemo
          emptyState).1 bPng "ex.com" tsDemo).2.toOption =
      some { success := true, skipped := none, cacheHit := false,
             contentDuplicate := true, sizeMB := none } := by
  decide

/-- Claim C5 counterexample: the classifications disagree with the
claimed property at concrete hosts — the extractor's `isExternalUrl`
classifies `www.ex.com` as external to `ex.com` (the claim requires
internal), and `getAssetLocalPath` places the subdomain `cdn.ex.com`
under the internal `assets/` tree via its `endsWith` test (the claim
requires external). -/
theorem classification_counterexample :
    isExternalUrl "ex.com" "https://www.ex.com/logo.png" = true ∧
    assetLocalPathIsExternal "ex.com" "cdn.ex.com" = false ∧
    getAssetLocalPath "out" "https://cdn.ex.com/x.png" "ex.com" "20230101000000" =
      "out/ex.com/20230101000000/assets/x.png" := by
  refine ⟨by decide, by decide, by decide⟩

/-- Claim C5 (amended): only the URL rewriter's `isExternalDomain`
satisfies the claimed property (internal iff the host is `domain` or
`www.domain`); the extractor's `isExternalUrl` is internal only on an
exact hostname match, so `www.domain` counts as external there; and the
asset-local-path computation is internal exactly when the hostname ends
with `domain` (written as a suffix decomposition `h2 = s ++ domain`), so
every subdomain and suffix lookalike is internal there, and every other
host is external there. -/
theorem classification_amended (domain hostname url : String) :
    (isExternalDomain domain hostname = false ↔
      (hostname = domain ∨ hostname = "www." ++ domain)) ∧
    (∀ pu, parseUrl url = some pu →
      (isExternalUrl domain url = false ↔ pu.hostname = domain)) ∧
    (∀ h2, assetLocalPathIsExternal domain h2 = false ↔ ∃ s, h2 = s ++ domain) := by
  refine ⟨?_, ?_, ?_⟩
  · simp [isExternalDomain]
    tauto
  · intro pu h
    simp [isExternalUrl, h]
  · intro h2
    unfold assetLocalPathIsExternal jsEndsWith
    rw [Bool.not_eq_false']
    rw [List.isSuffixOf_iff_suffix]
    constructor
    · rintro ⟨t, ht⟩
      exact ⟨⟨t⟩, String.ext ht.symm⟩
    · rintro ⟨s, rfl⟩
      exact ⟨s.data, rfl⟩

/-- Claim C5 (amended) witness: instantiated at `ex.com` with the parse
of a same-domain URL and the subdomain host `cdn.ex.com`. -/
theorem classification_amended_witness :
    (isExternalDomain "ex.com" "www.ex.com" = false ↔
      ("www.ex.com" = "ex.com" ∨ "www.ex.com" = "www." ++ "ex.com")) ∧
    parseUrl "https://ex.com/x.png" = some ⟨"https://", "ex.com", "/x.png"⟩ ∧
    (isExternalUrl "ex.com" "https://ex.com/x.png" = false ↔
      ParsedUrl.hostname ⟨"https://", "ex.com", "/x.png"⟩ = "ex.com") ∧
    assetLocalPathIsExternal "ex.com" "cdn.ex.com" = false :=
  ⟨(classification_amended "ex.com" "www.ex.com" "https://ex.com/x.png").1,
   by decide,
   (classification_amended "ex.com" "www.ex.com" "https://ex.com/x.png").2.1
     ⟨"https://", "ex.com", "/x.png"⟩ (by decide),
   ((classification_amended "ex.com" "www.ex.com" "https://ex.com/x.png").2.2
     "cdn.ex.com").mpr ⟨"cdn.", rfl⟩⟩

/-- Claim C6: `addUrl` is idempotent on the primary key `(url, timestamp)`
— in a table holding at most one row for the key, one `addUrl` leaves
exactly one row, and any further `addUrl` against a table that has the
key is a complete no-op (every field, in particular `status`, is
untouched, whatever the row currently holds). -/
theorem addUrl_idempotent_spec (s : CrawlerDBState) (u t d st : String)
    (hwf : countKey s u t ≤ 1) :
    countKey (addUrl s u t d st) u t = 1 ∧
    ∀ s2 d2 st2, hasKey s2 u t = true → addUrl s2 u t d2 st2 = s2 := by
  constructor
  · by_cases h : hasKey s u t = true
    · rw [addUrl, if_pos h]
      have := (hasKey_iff s u t).mp h
      omega
    · rw [addUrl, if_neg h]
      have h0 : countKey s u t = 0 := by
        by_contra hc
        exact h ((hasKey_iff s u t).mpr (by omega))
      simp only [countKey] at h0 ⊢
      rw [List.filter_append, List.length_append, h0]
      simp
  · intro s2 d2 st2 h
    rw [addUrl, if_pos h]

/-- Claim C6 witness: adding the same key twice to an empty queue and
then marking it completed — the third `addUrl` leaves the completed row
alone. -/
theorem addUrl_idempotent_spec_witness :
    countKey ⟨[]⟩ "http://test.com" "20100101000000" ≤ 1 ∧
    countKey (addUrl ⟨[]⟩ "http://test.com" "20100101000000" "test.com" "pending")
      "http://test.com" "20100101000000" = 1 ∧
    hasKey (markCompleted
      (addUrl ⟨[]⟩ "http://test.com" "20100101000000" "test.com" "pending")
      "http://test.com" "20100101000000" "/path/to/file") "http://test.com"
      "20100101000000" = true ∧
    addUrl (markCompleted
      (addUrl ⟨[]⟩ "http://test.com" "20100101000000" "test.com" "pending")
      "http://test.com" "20100101000000" "/path/to/file") "http://test.com"
      "20100101000000" "test.com" "pending" =
      markCompleted
        (addUrl ⟨[]⟩ "http://test.com" "20100101000000" "test.com" "pending")
        "http://test.com" "20100101000000" "/path/to/file" :=
  ⟨by decide,
   (addUrl_idempotent_spec ⟨[]⟩ "http://test.com" "20100101000000" "test.com" "pending"
     (by decide)).1,
   by decide,
   (addUrl_idempotent_spec ⟨[]⟩ "http://test.com" "20100101000000" "test.com" "pending"
     (by decide)).2 _ "test.com" "pending" (by decide)⟩

/-- Claim C7 (code bug): a `<source src="movie.mp4">` inside `<video>` is
emitted twice by `extractFromHtml` — once as `image` by the `img, source`
pass and once as `video` by the dedicated `source` pass — so the output
holds two `AssetRef`s with the same resolved absolute URL; no
deduplication happens. -/
theorem extractFromHtml_double_emit :
    extractFromHtml "ex.com"
      [⟨"video", [], none⟩, ⟨"source", [("src", "movie.mp4")], some "video"⟩]
      "https://ex.com/index.html" "index.html" =
    [⟨"https://ex.com/movie.mp4", .image, "index.html", false⟩,
     ⟨"https://ex.com/movie.mp4", .video, "index.html", false⟩] := by
  decide

/-- Each discovered link passes the internal-URL filter. -/
theorem extractLinksStep_mem (baseUrl domain : String) (links : List String)
    (e : HtmlElement) (l : String) (hl : l ∈ extractLinksStep baseUrl domain links e) :
    l ∈ links ∨ isInternalUrl l domain = true := by
  unfold extractLinksStep at hl
  split at hl
  · split at hl
    · exact Or.inl hl
    · split at hl
      · exact Or.inl hl
      · dsimp only at hl
        split at hl
        · split at hl
          · exact Or.inl hl
          · rcases List.mem_append.mp hl with h | h
            · exact Or.inl h
            · rename_i hint _
              rcases List.mem_singleton.mp h with rfl
              exact Or.inr hint
        · exact Or.inl hl
  · exact Or.inl hl

/-- Everything `extractLinks` returns is internal to the page's domain. -/
theorem extractLinks_sound (doc : List HtmlElement) (baseUrl domain : String)
    (l : String) (hl : l ∈ extractLinks doc baseUrl domain) :
    isInternalUrl l domain = true := by
  unfold extractLinks at hl
  suffices h : ∀ init : List String, (∀ x ∈ init, isInternalUrl x domain = true) →
      l ∈ doc.foldl (extractLinksStep baseUrl domain) init →
      isInternalUrl l domain = true by
    exact h [] (by simp) hl
  clear hl
  induction doc with
  | nil => intro init h hmem; exact h l hmem
  | cons e rest ih =>
    intro init h hmem
    refine ih (extractLinksStep baseUrl domain init e) ?_ hmem
    intro x hx
    rcases extractLinksStep_mem baseUrl domain init e x hx with h1 | h1
    · exact h x h1
    · exact h1

/-- Rows produced by queueing a list of internal links are either
pre-existing or carry the queued timestamp, domain, pending status, and an
internal URL. -/
theorem addUrl_fold_rows (timestamp domain : String) (links : List String) :
    ∀ (db : CrawlerDBState) (row : UrlRow),
      (∀ l ∈ links, isInternalUrl l domain = true) →
      row ∈ (links.foldl (fun s link => addUrl s link timestamp domain "pending") db).rows →
      row ∈ db.rows ∨
        (row.timestamp = timestamp ∧ row.domain = domain ∧ row.status = "pending" ∧
         isInternalUrl row.url domain = true) := by
  induction links with
  | nil => intro db row _ h; exact Or.inl h
  | cons link rest ih =>
    intro db row hsound hrow
    simp only [List.foldl_cons] at hrow
    rcases ih (addUrl db link timestamp domain "pending") row
        (fun l hl => hsound l (by simp [hl])) hrow with h | h
    · unfold addUrl at h
      split at h
      · exact Or.inl h
      · rcases List.mem_append.mp h with h1 | h1
        · exact Or.inl h1
        · rcases List.mem_singleton.mp h1 with rfl
          exact Or.inr ⟨rfl, rfl, rfl, hsound link (by simp)⟩
    · exact Or.inr h

/-- An internal URL parses (after archive-prefix stripping) to a hostname
among the domain variants. -/
theorem isInternalUrl_spec (l d : String) (h : isInternalUrl l d = true) :
    ∃ pu, parseUrl (normalizeUrl l) = some pu ∧
      (pu.hostname = d ∨ pu.hostname = "www." ++ d ∨ pu.hostname = "") := by
  unfold isInternalUrl at h
  cases hp : parseUrl (normalizeUrl l) with
  | none => rw [hp] at h; cases h
  | some pu =>
    rw [hp] at h
    refine ⟨pu, rfl, ?_⟩
    simp at h
    tauto

/-- Claim C8: every queue row created by link discovery while processing
a page carries that page's timestamp and domain (with status `pending`),
and its URL — after stripping any embedded archive prefix — parses to a
host among `domain`, `www.domain` and the empty host. -/
theorem discoverLinks_confinement_spec (db : CrawlerDBState) (doc : List HtmlElement)
    (baseUrl timestamp domain : String) (row : UrlRow)
    (hrow : row ∈ (discoverLinks db doc baseUrl timestamp domain).rows) :
    row ∈ db.rows ∨
      (row.timestamp = timestamp ∧ row.domain = domain ∧ row.status = "pending" ∧
       ∃ pu, parseUrl (normalizeUrl row.url) = some pu ∧
         (pu.hostname = domain ∨ pu.hostname = "www." ++ domain ∨ pu.hostname = "")) := by
  unfold discoverLinks at hrow
  rcases addUrl_fold_rows timestamp domain (extractLinks doc baseUrl domain) db row
      (fun l hl => extractLinks_sound doc baseUrl domain l hl) hrow with h | h
  · exact Or.inl h
  · exact Or.inr ⟨h.1, h.2.1, h.2.2.1, isInternalUrl_spec row.url domain h.2.2.2⟩

/-- Claim C8 witness: discovering `/about` from a page of `ex.com` queues
a row with the page's timestamp and domain and the internal host
`ex.com`. -/
theorem discoverLinks_confinement_spec_witness :
    aboutRow ∈ (discoverLinks ⟨[]⟩ demoDoc "https://ex.com/index.html" "20230101000000"
      "ex.com").rows ∧
    (aboutRow ∈ (⟨[]⟩ : CrawlerDBState).rows ∨
      (aboutRow.timestamp = "20230101000000" ∧ aboutRow.domain = "ex.com" ∧
       aboutRow.status = "pending" ∧
       ∃ pu, parseUrl (normalizeUrl aboutRow.url) = some pu ∧
         (pu.hostname = "ex.com" ∨ pu.hostname = "www." ++ "ex.com" ∨
          pu.hostname = ""))) :=
  ⟨by decide,
   discoverLinks_confinement_spec ⟨[]⟩ demoDoc "https://ex.com/index.html"
     "20230101000000" "ex.com" aboutRow (by decide)⟩

/-- Claim C9 counterexample: a same-domain reference `/img/x.png` in a
CSS file of `ex.com` is rewritten to `../img/x.png`, not to the claimed
`../assets/img/x.png`; an external reference likewise loses the
`assets/` segment. -/
theorem rewriteCss_literal_counterexample :
    rewriteUrlForCss "ex.com" "/img/x.png" "https://ex.com/css/style.css" =
      "../img/x.png" ∧
    rewriteUrlForCss "ex.com" "/img/x.png" "https://ex.com/css/style.css" ≠
      "../assets/img/x.png" ∧
    rewriteUrlForCss "ex.com" "https://cdn.y.com/f.woff" "https://ex.com/css/style.css" ≠
      "../assets/external/cdn.y.com/f.woff" ∧
    rewriteCss "ex.com" [.urlRef "url(/img/x.png)" "/img/x.png"]
      "https://ex.com/css/style.css" = "url(\"../img/x.png\")" := by
  refine ⟨by decide, by decide, by decide, by decide⟩

/-- Claim C9 (amended): for every reference that resolves, the CSS
rewrite is the HTML rewrite with the leading `assets/` segment replaced
by `../` — same-domain `/p` maps to `../p` and an external asset at host
`H` maps to `../external/H/p` — i.e. one `../` applied to the path
relative to the `assets/` directory, not to the full HTML mapping; and
`rewriteCss` emits exactly that inside `url("...")` for non-`data:`
references. -/
theorem rewriteCss_relative_amended (baseDomain url base whole : String) (pu : ParsedUrl)
    (h : resolveParse url base = some pu) (hdata : isDataUri url = false) :
    (∃ r, rewriteUrl baseDomain url base = "assets/" ++ r ∧
          rewriteUrlForCss baseDomain url base = "../" ++ r) ∧
    rewriteCss baseDomain [.urlRef whole url] base =
      "url(\"" ++ rewriteUrlForCss baseDomain url base ++ "\")" := by
  constructor
  · unfold rewriteUrl rewriteUrlForCss
    rw [h]
    by_cases hx : isExternalDomain baseDomain pu.hostname = true
    · refine ⟨"external/" ++ pu.hostname ++ "/" ++
        (if strStarts pu.pathname "/" then strTail pu.pathname else pu.pathname),
        ?_, ?_⟩
      · have hlit : ("assets/" : String) ++ "external/" = "assets/external/" := rfl
        simp [hx, ← String.append_assoc, hlit]
      · have hlit : ("../" : String) ++ "external/" = "../external/" := rfl
        simp [hx, ← String.append_assoc, hlit]
    · simp at hx
      refine ⟨if strStarts pu.pathname "/" then strTail pu.pathname else pu.pathname,
        ?_, ?_⟩
      · simp [hx]
      · simp [hx]
  · simp [rewriteCss, hdata]

/-- Claim C9 (amended) witness: the same-domain reference `/img/x.png`
maps to `assets/img/x.png` in HTML and `../img/x.png` in CSS. -/
theorem rewriteCss_relative_amended_witness :
    resolveParse "/img/x.png" "https://ex.com/css/style.css" =
      some ⟨"https://", "ex.com", "/img/x.png"⟩ ∧
    isDataUri "/img/x.png" = false ∧
    ((∃ r, rewriteUrl "ex.com" "/img/x.png" "https://ex.com/css/style.css" =
        "assets/" ++ r ∧
      rewriteUrlForCss "ex.com" "/img/x.png" "https://ex.com/css/style.css" =
        "../" ++ r) ∧
     rewriteCss "ex.com" [.urlRef "url(/img/x.png)" "/img/x.png"]
       "https://ex.com/css/style.css" =
       "url(\"" ++ rewriteUrlForCss "ex.com" "/img/x.png" "https://ex.com/css/style.css" ++
         "\")") :=
  ⟨by decide, by decide,
   rewriteCss_relative_amended "ex.com" "/img/x.png" "https://ex.com/css/style.css"
     "url(/img/x.png)" ⟨"https://", "ex.com", "/img/x.png"⟩ (by decide) (by decide)⟩
